import Mathlib

/-!
Verification development for the `crypto_signal_panel` repository.

We give a shallow embedding, over `ℚ` (for prices/volumes, with `Option ℚ`
standing for pandas NaN) and `Int`/`Nat` (for counters and indices), of the
parts of the code that the verified properties are about:

* the indicator primitives of `crypto_signal_panel/utils.py`
  (`Series.diff` / `change`, rolling-window aggregates with
  `min_periods = window`, the `ewm(adjust=False)` recursion, and
  `anchored_vwap`);
* `rsi` from `crypto_signal_panel/strategy.py`;
* the stateful core of `compute_signal` in `crypto_signal_panel/strategy.py`
  (the accumulation-streak update of `_market_flow` plus the
  pending/entry resolution and `bars_since` bookkeeping);
* the per-pair scanning step and the error path of
  `SignalScanner._watch_pair` in `crypto_signal_panel/scanner.py`.

The purely arithmetic sub-signal pipelines (`chips` composite, VIX spike,
divergence scan, VWAP price channel, ATR target/stop) feed the stateful core
only through two booleans — the raw accumulation flag
`is_raw_accumulation` of `_market_flow` and the panic flag `is_vix_spike`
of `_trend_rider` — and through pure float outputs that no stateful decision
reads back.  The core is therefore embedded as a function of those two
booleans (universally quantified in every theorem), the bar count `len(df)`,
and the mutable `StrategyState`.
-/

namespace CryptoSignalPanel

/-- Mirrors the dataclass `StrategyState` (strategy.py lines 77-82):
`accumulation_streak: int = 0`, `pending_signal: bool = False`,
`bars_since_squeeze: int = 0`, `last_signal_bar_index: Optional[int] = None`. -/
structure StrategyState where
  accumulation_streak : Int := 0
  pending_signal : Bool := false
  bars_since_squeeze : Int := 0
  last_signal_bar_index : Option Int := none
  deriving DecidableEq, Repr

/-- The dataclass defaults: `StrategyState()` as constructed by
`PairState` in scanner.py. -/
def freshState : StrategyState := {}

/-- The fields of the dict returned by `compute_signal` that the stateful
logic determines (strategy.py lines 414-421).  The float fields
`tp_target`, `sl_price`, `chips_value` are pure outputs of the indicator
pipeline that no stateful decision reads back; they are omitted here. -/
structure SignalOutput where
  long_condition : Bool
  bars_since : Int
  pending_signal : Bool
  deriving DecidableEq, Repr

/-- `chips_confirmation_bars = 2` (strategy.py line 96). -/
def chips_confirmation_bars : Int := 2

/-- Embeds the stateful core of `compute_signal` (strategy.py lines 383-421)
together with the accumulation-streak update of `_market_flow`
(strategy.py lines 117-124).

Inputs: `rawAccum` is the bar's value of `is_raw_accumulation`
(`chips_value > 0.1` and not NaN, line 115), `panic` is the bar's value of
`tr["is_vix_spike"]`, and `n` is `len(df)`.  Line by line:

* `if len(df) >= 1:` guard, then `streak += 1` on a raw-flag bar and
  `streak = 0` otherwise (lines 118-122);
* `is_confirmed_accumulation = streak >= chips_confirmation_bars` (line 124);
* `normal_entry = accumulation_signal and (not panic_mode)` (line 391);
* `if accumulation_signal and panic_mode: state.pending_signal = True`
  (lines 393-394);
* `pending_entry = state.pending_signal and (not panic_mode)`,
  `if pending_entry: state.pending_signal = False` (lines 396-398);
* `long_condition = normal_entry or pending_entry` (line 400);
* `if long_condition: state.last_signal_bar_index = len(df) - 1`
  (lines 407-408);
* `bars_since = 0`; `if state.last_signal_bar_index is not None:
  bars_since = max(0, (len(df) - 1) - state.last_signal_bar_index)`
  (lines 410-412). -/
def computeSignalCore (rawAccum panic : Bool) (n : Nat) (st : StrategyState) :
    StrategyState × SignalOutput :=
  let streak : Int :=
    if 1 ≤ n then (if rawAccum then st.accumulation_streak + 1 else 0)
    else st.accumulation_streak
  let accumulation_signal : Bool := decide (chips_confirmation_bars ≤ streak)
  let normal_entry : Bool := accumulation_signal && !panic
  let pending1 : Bool :=
    if accumulation_signal && panic then true else st.pending_signal
  let pending_entry : Bool := pending1 && !panic
  let pending2 : Bool := if pending_entry then false else pending1
  let long_condition : Bool := normal_entry || pending_entry
  let lastIdx : Option Int :=
    if long_condition then some ((n : Int) - 1) else st.last_signal_bar_index
  let bars_since : Int :=
    match lastIdx with
    | none => 0
    | some k => max 0 (((n : Int) - 1) - k)
  ({ accumulation_streak := streak, pending_signal := pending2,
     bars_since_squeeze := st.bars_since_squeeze,
     last_signal_bar_index := lastIdx },
   { long_condition := long_condition, bars_since := bars_since,
     pending_signal := pending2 })

/-! ### Indicator primitives (utils.py), over `List ℚ` with `Option ℚ` for NaN -/

/-- `series.diff()` (pandas `Series.diff`, also `change` in utils.py line 53):
NaN at position 0, `s[i] - s[i-1]` afterwards.  `diffAux prev xs` produces the
differences of `xs` against the running previous element. -/
def diffAux (prev : ℚ) : List ℚ → List (Option ℚ)
  | [] => []
  | x :: xs => some (x - prev) :: diffAux x xs

/-- `series.diff()` on a fully numeric series. -/
def diffO : List ℚ → List (Option ℚ)
  | [] => []
  | x :: xs => none :: diffAux x xs

/-- `series.ewm(alpha, adjust=False).mean()` (the recursion
`y_i = (1-alpha) * y_{i-1} + alpha * x_i`, seeded by the first numeric
value).  A NaN input position repeats the current mean (NaN while no numeric
value has been seen).  In this code base the only NaN inputs are the leading
NaN produced by `diff`, for which this matches pandas exactly. -/
def ewmAdjFalse (alpha : ℚ) : List (Option ℚ) → Option ℚ → List (Option ℚ)
  | [], _ => []
  | x :: xs, m =>
    match x, m with
    | none, _ => m :: ewmAdjFalse alpha xs m
    | some v, none => some v :: ewmAdjFalse alpha xs (some v)
    | some v, some mv =>
      some ((1 - alpha) * mv + alpha * v) ::
        ewmAdjFalse alpha xs (some ((1 - alpha) * mv + alpha * v))

/-- `series.rolling(window=w, min_periods=w).apply(f)`: at index `i` the
aggregate `f` of the last `w` elements when `i + 1 ≥ w`, NaN otherwise.
`sma`, `lowest` and `highest` in utils.py (lines 37-50) instantiate `f`. -/
def rollingApply (f : List ℚ → ℚ) (series : List ℚ) (window : Nat) :
    List (Option ℚ) :=
  (List.range series.length).map fun i =>
    if window ≤ i + 1 then some (f ((series.take (i + 1)).drop (i + 1 - window)))
    else none

/-- `sma` (utils.py lines 37-38): rolling mean with `min_periods = length`. -/
def sma (series : List ℚ) (length : Nat) : List (Option ℚ) :=
  rollingApply (fun w => w.sum / w.length) series length

/-- `lowest` (utils.py lines 45-46): rolling min with `min_periods = length`.
The emitted window always has exactly `length` elements, so for any
`length ≥ 1` (pandas rejects `window = 0`) the fold below is the window's
true minimum and the `[]` branch is unreachable. -/
def lowest (series : List ℚ) (length : Nat) : List (Option ℚ) :=
  rollingApply
    (fun w => match w with | [] => 0 | x :: xs => xs.foldl min x) series length

/-- `highest` (utils.py lines 49-50): rolling max with `min_periods = length`,
the window's true maximum on the (always nonempty) emitted window. -/
def highest (series : List ℚ) (length : Nat) : List (Option ℚ) :=
  rollingApply
    (fun w => match w with | [] => 0 | x :: xs => xs.foldl max x) series length

/-! ### RSI (strategy.py lines 10-18) -/

/-- The Wilder-smoothed average loss of `rsi` (strategy.py lines 13-15):
`loss = -delta.clip(upper=0)` then `loss.ewm(alpha=1/length,
adjust=False).mean()`. -/
def rsiAvgLoss (series : List ℚ) (length : Nat) : List (Option ℚ) :=
  ewmAdjFalse (1 / (length : ℚ))
    ((diffO series).map (Option.map fun d => -(min d 0))) none

/-- The Wilder-smoothed average gain of `rsi` (strategy.py lines 12, 14):
`gain = delta.clip(lower=0)` then the same `ewm` mean. -/
def rsiAvgGain (series : List ℚ) (length : Nat) : List (Option ℚ) :=
  ewmAdjFalse (1 / (length : ℚ))
    ((diffO series).map (Option.map fun d => max d 0)) none

/-- `rsi` (strategy.py lines 10-18):
`rs = avg_gain / (avg_loss.replace(0, np.nan))`;
`rsi_vals = 100 - (100 / (1 + rs))`; `return rsi_vals.fillna(0)`.
A zero (or NaN) average loss makes `rs` NaN, hence `rsi_vals` NaN, and the
final `fillna(0)` turns every NaN into `0`. -/
def rsi (series : List ℚ) (length : Nat) : List ℚ :=
  let rs := List.zipWith
    (fun g l =>
      match g, l with
      | some gv, some lv => if lv = 0 then none else some (gv / lv)
      | _, _ => (none : Option ℚ))
    (rsiAvgGain series length) (rsiAvgLoss series length)
  (rs.map (Option.map fun r => 100 - 100 / (1 + r))).map (fun x => x.getD 0)

/-! ### Anchored VWAP (utils.py lines 70-82) -/

/-- One iteration of the `anchored_vwap` loop body on the accumulator pair
`(cum_pv, cum_v)`: reset to the current bar's `(price * volume, volume)` when
the anchor is true, add them otherwise (utils.py lines 75-80). -/
def vwapStep (p v : ℚ) (a : Bool) (acc : ℚ × ℚ) : ℚ × ℚ :=
  if a then (p * v, v) else (acc.1 + p * v, acc.2 + v)

/-- The sequence of accumulator states of `anchored_vwap`, one per processed
bar, starting from accumulator `acc` (initially `(0, 0)` as in utils.py
lines 72-73).  Bars are the zipped triples (price, volume, anchor). -/
def anchoredVwapStates (acc : ℚ × ℚ) : List (ℚ × ℚ × Bool) → List (ℚ × ℚ)
  | [] => []
  | (p, v, a) :: rest =>
    vwapStep p v a acc :: anchoredVwapStates (vwapStep p v a acc) rest

/-- The per-bar output of `anchored_vwap`:
`cum_pv / cum_v if cum_v > 0 else np.nan` (utils.py line 81). -/
def vwapOut (acc : ℚ × ℚ) : Option ℚ :=
  if 0 < acc.2 then some (acc.1 / acc.2) else none

/-- `anchored_vwap` (utils.py lines 70-82) on the three parallel series
(the pandas series share an index; they are zipped here). -/
def anchored_vwap (prices volumes : List ℚ) (anchor : List Bool) :
    List (Option ℚ) :=
  (anchoredVwapStates (0, 0) (prices.zip (volumes.zip anchor))).map vwapOut

/-- A run of the entry state machine over successive closed-bar evaluations:
each list element is the pair (raw accumulation flag, panic flag) the
indicator pipeline produced for that bar; the bar count grows by one per
newly closed candle.  Returns the trace of `long_condition` outputs and the
final state. -/
def runEntry : List (Bool × Bool) → Nat → StrategyState → List Bool × StrategyState
  | [], _, st => ([], st)
  | (r, p) :: rest, n, st =>
    let step := computeSignalCore r p n st
    let tail := runEntry rest (n + 1) step.1
    (step.2.long_condition :: tail.1, tail.2)

/-! ### Pair scanner (scanner.py) -/

/-- One OHLCV row `[timestamp, open, high, low, close, volume]` as handed to
`ohlcv_to_df` (utils.py lines 102-105); the timestamp is exchange epoch ms. -/
structure Candle where
  ts : Int
  copen : ℚ
  high : ℚ
  low : ℚ
  close : ℚ
  volume : ℚ
  deriving DecidableEq, Repr

/-- Mirrors the dataclass `PairState` (scanner.py lines 19-26).  The constant
identity fields `symbol`, `timeframe`, `market_type` are carried along
unchanged; `state`, `ohlcv` and `last_closed_ts` are the mutable fields. -/
structure PairSt where
  symbol : String
  timeframe : String
  market_type : String
  strategy : StrategyState := {}
  ohlcv : List Candle := []
  last_closed_ts : Option Int := none
  deriving DecidableEq, Repr

/-- The dict put on `status_queue` (scanner.py lines 101-107 for a closed
candle, lines 123-129 for the error path).  The normal status has no error
field (`error = none`); the error status has no `last_ts` field
(`last_ts = none`).  The constant `mode` string is omitted. -/
structure StatusMsg where
  symbol : String
  market_type : String
  timeframe : String
  last_ts : Option Int
  error : Option String
  deriving DecidableEq, Repr

/-- The dict put on `signal_queue` (scanner.py lines 110-120).  The float
fields `upper_target`, `atr_stop`, `strength` are pure pipeline outputs not
modelled by `SignalOutput` and are omitted. -/
structure SignalMsg where
  symbol : String
  market_type : String
  timeframe : String
  signal_time : Int
  current_price : ℚ
  bars_since : Int
  deriving DecidableEq, Repr

/-- One iteration of the `_watch_pair` loop body after a successful fetch
(scanner.py lines 91-121), parametrised by the strategy call
(`compute_signal(df, pair.state)`, line 108) so that every theorem holds for
every strategy behaviour:

* an empty batch is skipped (`if not ohlcv: continue`, lines 91-93);
* `last_ts = int(df.index[-1])` (line 97);
* the pair is only processed when `pair.last_closed_ts is None or
  last_ts > pair.last_closed_ts` (line 98); otherwise nothing is emitted and
  the pair's state is untouched;
* on a newly closed candle: `last_closed_ts` and `ohlcv` are updated, one
  StatusUpdate is emitted, the strategy is run on the pair's state, and one
  Signal is emitted iff `sig["long_condition"]` (lines 99-120). -/
def scanStep
    (computeSig : List Candle → StrategyState → StrategyState × SignalOutput)
    (batch : List Candle) (p : PairSt) :
    PairSt × List StatusMsg × List SignalMsg :=
  match batch.getLast? with
  | none => (p, [], [])
  | some c =>
    let isNew : Bool :=
      match p.last_closed_ts with
      | none => true
      | some t => decide (t < c.ts)
    if isNew then
      let res := computeSig batch p.strategy
      let sigs : List SignalMsg :=
        if res.2.long_condition then
          [{ symbol := p.symbol, market_type := p.market_type,
             timeframe := p.timeframe, signal_time := c.ts,
             current_price := c.close, bars_since := res.2.bars_since }]
        else []
      ({ p with strategy := res.1, ohlcv := batch,
                last_closed_ts := some c.ts },
       [{ symbol := p.symbol, market_type := p.market_type,
          timeframe := p.timeframe, last_ts := some c.ts, error := none }],
       sigs)
    else (p, [], [])

/-- The outcome of one `await` for OHLCV data inside the `_watch_pair` loop
(scanner.py lines 86-89): either a batch of rows or a raised transport
error carrying its message. -/
inductive FetchResult where
  | fetchOk (batch : List Candle)
  | fetchErr (msg : String)
  deriving DecidableEq, Repr

/-- The `_watch_pair` coroutine (scanner.py lines 82-130) run on a finite
sequence of fetch outcomes (an empty remainder means the loop is still
polling).  The `try` block wraps the whole `while True` loop, so a raised
transport error transfers control to the `except` clause *outside* the
loop: one error StatusUpdate is published (lines 123-129), the coroutine
sleeps (line 130) and then returns — the remaining fetch outcomes are never
processed.  The returned `Bool` records whether the coroutine terminated
through that error path. -/
def watchPairRun
    (computeSig : List Candle → StrategyState → StrategyState × SignalOutput) :
    List FetchResult → PairSt → PairSt × List StatusMsg × List SignalMsg × Bool
  | [], p => (p, [], [], false)
  | FetchResult.fetchErr m :: _, p =>
    (p,
     [{ symbol := p.symbol, market_type := p.market_type,
        timeframe := p.timeframe, last_ts := none, error := some m }],
     [], true)
  | FetchResult.fetchOk batch :: rest, p =>
    let step := scanStep computeSig batch p
    let tail := watchPairRun computeSig rest step.1
    (tail.1, step.2.1 ++ tail.2.1, step.2.2 ++ tail.2.2.1, tail.2.2.2)

/-- The strategy call with the indicator pipeline's two booleans held fixed:
a concrete instance of `compute_signal` used to instantiate `scanStep` and
`watchPairRun` in closed-form evaluations. -/
def pureStrategy (rawAccum panic : Bool) :
    List Candle → StrategyState → StrategyState × SignalOutput :=
  fun batch st => computeSignalCore rawAccum panic batch.length st

/-! ### Helper lemmas on the entry state machine -/

/-- While panic is active no entry fires: both `normal_entry` and
`pending_entry` carry the conjunct `not panic_mode`. -/
theorem core_long_false_of_panic (r : Bool) (n : Nat) (st : StrategyState) :
    ((computeSignalCore r true n st).2).long_condition = false := by
  simp [computeSignalCore]

/-- While panic is active a set pending flag stays set: the only clearing
site is guarded by `pending_entry`, which is false under panic. -/
theorem core_pending_preserved_of_panic (r : Bool) (n : Nat) (st : StrategyState)
    (h : st.pending_signal = true) :
    ((computeSignalCore r true n st).1).pending_signal = true := by
  simp [computeSignalCore, h]

/-- On a panic-free bar with the pending flag set, `pending_entry` is true:
the entry fires and the flag is cleared, whatever the accumulation state. -/
theorem core_fires_of_calm_pending (r : Bool) (n : Nat) (st : StrategyState)
    (h : st.pending_signal = true) :
    ((computeSignalCore r false n st).2).long_condition = true ∧
    ((computeSignalCore r false n st).1).pending_signal = false := by
  simp [computeSignalCore, h]

/-- A bar with the raw accumulation flag, a prior streak of at least 1
(so the streak reaches `chips_confirmation_bars`) and panic active sets the
pending flag. -/
theorem core_sets_pending (n : Nat) (st : StrategyState) (hn : 1 ≤ n)
    (hs : 1 ≤ st.accumulation_streak) :
    ((computeSignalCore true true n st).1).pending_signal = true := by
  have h2 : chips_confirmation_bars ≤ st.accumulation_streak + 1 := by
    simp only [chips_confirmation_bars]; omega
  simp [computeSignalCore, hn, h2]

/-- Running the machine over bars that all have panic active, from a state
with the pending flag set, followed by one panic-free bar: no entry fires on
the panic bars, the deferred entry fires on the calm bar, and the flag ends
cleared.  The accumulation flags `mid` and `rK` are arbitrary. -/
theorem runEntry_panic_then_calm (mid : List Bool) :
    ∀ (n : Nat) (st : StrategyState) (rK : Bool), st.pending_signal = true →
      (runEntry (mid.map (fun a => (a, true)) ++ [(rK, false)]) n st).1 =
        mid.map (fun _ => false) ++ [true] ∧
      ((runEntry (mid.map (fun a => (a, true)) ++ [(rK, false)]) n st).2).pending_signal
        = false := by
  induction mid with
  | nil =>
    intro n st rK h
    obtain ⟨h1, h2⟩ := core_fires_of_calm_pending rK n st h
    simp only [List.map_nil, List.nil_append, runEntry]
    exact ⟨by rw [h1], h2⟩
  | cons a tl ih =>
    intro n st rK h
    simp only [List.map_cons, List.cons_append, runEntry]
    have h1 := core_long_false_of_panic a n st
    have h2 := core_pending_preserved_of_panic a n st h
    obtain ⟨ihl, ihp⟩ := ih (n + 1) ((computeSignalCore a true n st).1) rK h2
    refine ⟨?_, ihp⟩
    rw [h1]
    simpa using ihl

/-! ### Claim theorems -/

/-- Claim C3: once a signal is deferred (accumulation confirmed — the raw
flag holds with a prior streak of at least 1 — while panic is active), no
entry fires on the deferring bar nor on any subsequent panic bar, the
deferred entry fires exactly on the first subsequent panic-free bar
(whatever the accumulation flags `mid` and `rK` on the intervening and
firing bars), and the pending flag ends cleared so the deferral cannot fire
again. -/
theorem pending_signal_fires_once_on_first_calm_bar
    (st : StrategyState) (n0 : Nat) (mid : List Bool) (rK : Bool)
    (hstreak : 1 ≤ st.accumulation_streak) (hn : 1 ≤ n0) :
    (runEntry ((true, true) :: (mid.map (fun a => (a, true)) ++ [(rK, false)]))
        n0 st).1 = false :: (mid.map (fun _ => false) ++ [true]) ∧
    ((runEntry ((true, true) :: (mid.map (fun a => (a, true)) ++ [(rK, false)]))
        n0 st).2).pending_signal = false := by
  simp only [runEntry]
  have h1 := core_long_false_of_panic true n0 st
  have h2 := core_sets_pending n0 st hn hstreak
  obtain ⟨hl, hp⟩ :=
    runEntry_panic_then_calm mid (n0 + 1) ((computeSignalCore true true n0 st).1) rK h2
  exact ⟨by rw [h1, hl], hp⟩

/-- Concrete instance of claim C3: prior streak 1, deferral on bar 0, one
intervening panic bar, firing on the panic-free bar 2. -/
theorem pending_signal_fires_once_on_first_calm_bar_witness :
    (runEntry [(true, true), (false, true), (false, false)] 1
        { accumulation_streak := 1 }).1 = [false, false, true] ∧
    ((runEntry [(true, true), (false, true), (false, false)] 1
        { accumulation_streak := 1 }).2).pending_signal = false := by
  have h := pending_signal_fires_once_on_first_calm_bar
    { accumulation_streak := 1 } 1 [false] false (by decide) (by decide)
  exact ⟨h.1, h.2⟩

/-- Claim C5: on an evaluation with at least one bar (`1 ≤ n` mirrors the
`if len(df) >= 1` guard), the accumulation streak increments by exactly 1
when the bar's raw accumulation flag holds and resets to exactly 0 when it
does not; a non-negative streak stays non-negative. -/
theorem accumulation_streak_step (r p : Bool) (n : Nat) (st : StrategyState)
    (hn : 1 ≤ n) :
    (r = true →
      ((computeSignalCore r p n st).1).accumulation_streak =
        st.accumulation_streak + 1) ∧
    (r = false →
      ((computeSignalCore r p n st).1).accumulation_streak = 0) ∧
    (0 ≤ st.accumulation_streak →
      0 ≤ ((computeSignalCore r p n st).1).accumulation_streak) := by
  cases r <;> simp [computeSignalCore, hn] <;> omega

/-- Concrete instance of claim C5: a confirming bar takes the fresh streak
from 0 to 1, and the streak stays non-negative. -/
theorem accumulation_streak_step_witness :
    ((computeSignalCore true false 1 freshState).1).accumulation_streak =
      freshState.accumulation_streak + 1 ∧
    0 ≤ ((computeSignalCore true false 1 freshState).1).accumulation_streak := by
  have h := accumulation_streak_step true false 1 freshState (by decide)
  exact ⟨h.1 rfl, h.2.2 (by decide)⟩

/-- From a state with the pending flag clear and a non-positive streak, no
entry can fire on the evaluation: one bar at most brings the streak to 1,
below `chips_confirmation_bars`, so neither entry path is enabled. -/
theorem core_no_entry_of_idle_low_streak (r p : Bool) (n : Nat)
    (st : StrategyState) (hpend : st.pending_signal = false)
    (hstreak : st.accumulation_streak ≤ 0) :
    ((computeSignalCore r p n st).2).long_condition = false := by
  have haccum : (decide (chips_confirmation_bars ≤
      (if 1 ≤ n then (if r = true then st.accumulation_streak + 1 else 0)
       else st.accumulation_streak))) = false := by
    simp only [decide_eq_false_iff_not, chips_confirmation_bars]
    by_cases hn : 1 ≤ n
    · cases r <;> simp [hn] <;> omega
    · simp [hn]; omega
  simp only [computeSignalCore]
  rw [haccum]
  simp [hpend]

/-- On a window shorter than the rolling window every rolling-aggregate
output is NaN (`min_periods = window` is never met). -/
theorem rollingApply_short_window (f : List ℚ → ℚ) (series : List ℚ)
    (window : Nat) (h : series.length < window) :
    ∀ x ∈ rollingApply f series window, x = none := by
  intro x hx
  rw [rollingApply, List.mem_map] at hx
  obtain ⟨i, hi, hgi⟩ := hx
  rw [List.mem_range] at hi
  rw [← hgi, if_neg (by omega)]

/-- Claim C6 does not hold for every indicator: `rsi` (strategy.py line 18,
and likewise `mfi`, line 74) ends in `fillna(0)`, so on a window shorter
than its 14-bar period its value is the *defined* number 0, not a
not-ready/undefined value — here on a 1-bar close series. -/
theorem short_window_rsi_returns_defined_value :
    ([1] : List ℚ).length < 14 ∧ rsi [1] 14 = [0] :=
  ⟨by norm_num, rfl⟩

/-- Claim C6, amended: on a candle window shorter than a
`min_periods`-gated rolling indicator's required period that indicator's
value is NaN/not-ready at every bar (`sma`, `lowest`, `highest`, and
through them every rolling-window indicator) — whereas the
`fillna(0)`-terminated indicators (RSI, MFI) and the EMA family return
defined values on short windows instead; and from a fresh strategy state
the entry decision of the evaluation is false whatever the indicator
pipeline produced (in particular when it produced not-ready values), for
every bar count `n` — the short-history bar yields no signal rather than a
fault or an entry. -/
theorem short_window_not_ready_and_no_entry (series : List ℚ) (window : Nat)
    (h : series.length < window) :
    (∀ x ∈ sma series window, x = none) ∧
    (∀ x ∈ lowest series window, x = none) ∧
    (∀ x ∈ highest series window, x = none) ∧
    (∀ (r p : Bool) (n : Nat),
      ((computeSignalCore r p n freshState).2).long_condition = false) := by
  refine ⟨rollingApply_short_window _ series window h,
          rollingApply_short_window _ series window h,
          rollingApply_short_window _ series window h, ?_⟩
  intro r p n
  exact core_no_entry_of_idle_low_streak r p n freshState rfl (by decide)

/-- Concrete instance of claim C6: a 1-bar window with a 14-bar indicator is
all NaN, and the fresh-state entry decision is false. -/
theorem short_window_not_ready_and_no_entry_witness :
    (∀ x ∈ sma [1] 14, x = none) ∧
    ((computeSignalCore true false 1 freshState).2).long_condition = false := by
  have h := short_window_not_ready_and_no_entry [1] 14 (by decide)
  exact ⟨h.1, h.2.2.2 true false 1⟩

/-- Claim C8: the returned `bars_since` is never negative, and on a bar
whose entry fires it is exactly 0, with the current bar index
`len(df) - 1` recorded as `last_signal_bar_index`. -/
theorem bars_since_nonneg_and_zero_on_fire (r p : Bool) (n : Nat)
    (st : StrategyState) :
    0 ≤ ((computeSignalCore r p n st).2).bars_since ∧
    (((computeSignalCore r p n st).2).long_condition = true →
      ((computeSignalCore r p n st).2).bars_since = 0 ∧
      ((computeSignalCore r p n st).1).last_signal_bar_index =
        some ((n : Int) - 1)) := by
  constructor
  · simp only [computeSignalCore]
    split
    · omega
    · exact le_max_left 0 _
  · intro hfire
    simp only [computeSignalCore] at hfire ⊢
    rw [hfire]
    simp

/-- Concrete instance of claim C8: an immediate entry (streak reaching 2,
no panic) on bar index 4 yields `bars_since = 0` and records index 4. -/
theorem bars_since_nonneg_and_zero_on_fire_witness :
    ((computeSignalCore true false 5 { accumulation_streak := 1 }).2).bars_since
      = 0 ∧
    ((computeSignalCore true false 5 { accumulation_streak := 1 }).1).last_signal_bar_index
      = some 4 := by
  have h := (bars_since_nonneg_and_zero_on_fire true false 5
    { accumulation_streak := 1 }).2 (by decide)
  exact ⟨h.1, h.2⟩

/-- Claim C10: the pending flag is cleared (true before the evaluation,
false after it) only on an evaluation whose returned `long_condition` is
true — a deferred signal is never dropped without an entry firing. -/
theorem pending_cleared_only_when_entry_fires (r p : Bool) (n : Nat)
    (st : StrategyState) (hpend : st.pending_signal = true)
    (hclear : ((computeSignalCore r p n st).1).pending_signal = false) :
    ((computeSignalCore r p n st).2).long_condition = true := by
  cases p
  · simp [computeSignalCore, hpend]
  · exfalso
    have := core_pending_preserved_of_panic r n st hpend
    rw [this] at hclear
    exact absurd hclear (by decide)

/-- Concrete instance of claim C10: a calm bar clears a set pending flag and
indeed fires. -/
theorem pending_cleared_only_when_entry_fires_witness :
    ((computeSignalCore false false 1
        { pending_signal := true }).2).long_condition = true :=
  pending_cleared_only_when_entry_fires false false 1
    { pending_signal := true } (by decide) (by decide)

/-! ### Anchored VWAP lemmas -/

/-- The accumulator-state trace has one entry per processed bar. -/
theorem anchoredVwapStates_length (bars : List (ℚ × ℚ × Bool)) :
    ∀ acc : ℚ × ℚ, (anchoredVwapStates acc bars).length = bars.length := by
  induction bars with
  | nil => intro acc; rfl
  | cons hd tl ih =>
    obtain ⟨p, v, a⟩ := hd
    intro acc
    simp only [anchoredVwapStates, List.length_cons, ih]

/-- The first accumulator state is one `vwapStep` from the initial
accumulator. -/
theorem anchoredVwapStates_get_zero (bars : List (ℚ × ℚ × Bool))
    (acc : ℚ × ℚ) (p v : ℚ) (a : Bool) (hb : bars.get? 0 = some (p, v, a)) :
    (anchoredVwapStates acc bars).get? 0 = some (vwapStep p v a acc) := by
  cases bars with
  | nil => simp at hb
  | cons hd tl =>
    obtain ⟨q, w, b⟩ := hd
    simp only [List.get?_cons_zero, Option.some.injEq, Prod.mk.injEq] at hb
    obtain ⟨rfl, rfl, rfl⟩ := hb
    rfl

/-- Each later accumulator state is one `vwapStep` from the previous one. -/
theorem anchoredVwapStates_get_succ (bars : List (ℚ × ℚ × Bool)) :
    ∀ (acc : ℚ × ℚ) (i : Nat) (p v : ℚ) (a : Bool) (s : ℚ × ℚ),
      (anchoredVwapStates acc bars).get? i = some s →
      bars.get? (i + 1) = some (p, v, a) →
      (anchoredVwapStates acc bars).get? (i + 1) = some (vwapStep p v a s) := by
  induction bars with
  | nil => intro acc i p v a s hs _; simp [anchoredVwapStates] at hs
  | cons hd tl ih =>
    obtain ⟨q, w, b⟩ := hd
    intro acc i p v a s hs hb
    cases i with
    | zero =>
      rw [show anchoredVwapStates acc ((q, w, b) :: tl) =
            vwapStep q w b acc ::
              anchoredVwapStates (vwapStep q w b acc) tl from rfl] at hs ⊢
      rw [List.get?_cons_zero] at hs
      injection hs with hs
      subst hs
      rw [List.get?_cons_succ] at hb
      rw [List.get?_cons_succ]
      exact anchoredVwapStates_get_zero tl _ p v a hb
    | succ j =>
      rw [show anchoredVwapStates acc ((q, w, b) :: tl) =
            vwapStep q w b acc ::
              anchoredVwapStates (vwapStep q w b acc) tl from rfl] at hs ⊢
      rw [List.get?_cons_succ] at hs ⊢
      rw [List.get?_cons_succ] at hb
      exact ih _ j p v a s hs hb

/-- If bar `i` exists then so does accumulator state `i`. -/
theorem anchoredVwapStates_get_isSome (bars : List (ℚ × ℚ × Bool))
    (acc : ℚ × ℚ) (i : Nat) (hi : i < bars.length) :
    ∃ s, (anchoredVwapStates acc bars).get? i = some s := by
  have hl : i < (anchoredVwapStates acc bars).length := by
    rw [anchoredVwapStates_length]; exact hi
  exact ⟨_, List.get?_eq_get hl⟩

/-! ### Claims on the indicator library -/

/-- Claim C7: processing the zipped (price, volume, anchor) bars strictly in
order, the `anchored_vwap` accumulator pair `(cum_pv, cum_v)` is reset to
exactly the current bar's `(price * volume, volume)` on each anchor bar, and
on every non-anchor bar it is the previous accumulator plus the current
bar's `(price * volume, volume)` (the initial accumulator being `(0, 0)`);
and replaying the same candle sequence yields identical output. -/
theorem anchored_vwap_reset_and_accumulate (prices volumes : List ℚ)
    (anchor : List Bool) :
    (∀ (i : Nat) (p v : ℚ),
      (prices.zip (volumes.zip anchor)).get? i = some (p, v, true) →
      (anchoredVwapStates (0, 0) (prices.zip (volumes.zip anchor))).get? i =
        some (p * v, v)) ∧
    (∀ (p v : ℚ) (rest : List (ℚ × ℚ × Bool)),
      prices.zip (volumes.zip anchor) = (p, v, false) :: rest →
      (anchoredVwapStates (0, 0) (prices.zip (volumes.zip anchor))).get? 0 =
        some (0 + p * v, 0 + v)) ∧
    (∀ (i : Nat) (p v : ℚ) (s : ℚ × ℚ),
      (prices.zip (volumes.zip anchor)).get? (i + 1) = some (p, v, false) →
      (anchoredVwapStates (0, 0) (prices.zip (volumes.zip anchor))).get? i =
        some s →
      (anchoredVwapStates (0, 0) (prices.zip (volumes.zip anchor))).get? (i + 1)
        = some (s.1 + p * v, s.2 + v)) ∧
    anchored_vwap prices volumes anchor = anchored_vwap prices volumes anchor := by
  refine ⟨?_, ?_, ?_, rfl⟩
  · intro i p v hb
    cases i with
    | zero =>
      rw [anchoredVwapStates_get_zero _ _ p v true hb]
      simp [vwapStep]
    | succ j =>
      have hj : j < (prices.zip (volumes.zip anchor)).length := by
        obtain ⟨hlt, -⟩ := List.get?_eq_some.mp hb
        omega
      obtain ⟨s, hs⟩ := anchoredVwapStates_get_isSome _ (0, 0) j hj
      rw [anchoredVwapStates_get_succ _ _ j p v true s hs hb]
      simp [vwapStep]
  · intro p v rest hb
    rw [hb]
    rw [anchoredVwapStates_get_zero ((p, v, false) :: rest) (0, 0) p v false rfl]
    simp [vwapStep]
  · intro i p v s hb hs
    rw [anchoredVwapStates_get_succ _ _ i p v false s hs hb]
    simp [vwapStep]

/-- Concrete instance of claim C7: an anchor bar resets to the bar's
`(price * volume, volume)`, and the following non-anchor bar adds on. -/
theorem anchored_vwap_reset_and_accumulate_witness :
    (anchoredVwapStates (0, 0) ([2, 3].zip ([1, 2].zip [true, false]))).get? 0 =
      some (2 * 1, 1) ∧
    (anchoredVwapStates (0, 0) ([2, 3].zip ([1, 2].zip [true, false]))).get? 1 =
      some ((2 : ℚ) + 3 * 2, 1 + 2) := by
  have h := anchored_vwap_reset_and_accumulate [2, 3] [1, 2] [true, false]
  refine ⟨h.1 0 2 1 rfl, ?_⟩
  have h2 := h.2.2.1 0 3 2 (2 * 1, 1) rfl (h.1 0 2 1 rfl)
  simpa using h2

/-- Claim C9: `anchored_vwap` never divides by zero: at any bar whose
accumulated volume since the last anchor is not positive the output is NaN
(`none`), and only a strictly positive accumulated volume produces the
quotient. -/
theorem anchored_vwap_nonpositive_volume_yields_nan (prices volumes : List ℚ)
    (anchor : List Bool) (i : Nat) (s : ℚ × ℚ)
    (hs : (anchoredVwapStates (0, 0) (prices.zip (volumes.zip anchor))).get? i
        = some s) :
    (s.2 ≤ 0 → (anchored_vwap prices volumes anchor).get? i = some none) ∧
    (0 < s.2 →
      (anchored_vwap prices volumes anchor).get? i = some (some (s.1 / s.2))) := by
  constructor
  · intro hv
    rw [anchored_vwap, List.get?_map, hs]
    simp [vwapOut, not_lt.mpr hv]
  · intro hv
    rw [anchored_vwap, List.get?_map, hs]
    simp [vwapOut, hv]

/-- Concrete instance of claim C9: a bar with zero volume and no anchor
leaves the accumulated volume at 0 and the output is NaN. -/
theorem anchored_vwap_nonpositive_volume_yields_nan_witness :
    (anchored_vwap [1] [0] [false]).get? 0 = some none :=
  (anchored_vwap_nonpositive_volume_yields_nan [1] [0] [false] 0
    (0 + 1 * 0, 0 + 0) rfl).1 (by norm_num)

/-- Claim C1 (code bug evidence): on the strictly rising close series
`[1, 2]` the Wilder-smoothed average loss at bar 1 is exactly 0, yet `rsi`
returns 0 at that bar, not 100: `avg_loss.replace(0, np.nan)` makes `rs`
NaN and the final `fillna(0)` maps the bar to 0. -/
theorem rsi_zero_avg_loss_maps_to_zero_not_100 :
    (rsiAvgLoss [1, 2] 14).get? 1 = some (some 0) ∧
    (rsi [1, 2] 14).get? 1 = some 0 ∧
    (rsi [1, 2] 14).get? 1 ≠ some 100 := by
  have hloss : rsiAvgLoss [1, 2] 14 = [none, some 0] := by
    simp only [rsiAvgLoss, diffO, diffAux, List.map_cons, List.map_nil,
      Option.map_none', Option.map_some', ewmAdjFalse]
    norm_num [min_def]
  have hgain : rsiAvgGain [1, 2] 14 = [none, some 1] := by
    simp only [rsiAvgGain, diffO, diffAux, List.map_cons, List.map_nil,
      Option.map_none', Option.map_some', ewmAdjFalse]
    norm_num [max_def]
  have hrsi : rsi [1, 2] 14 = [0, 0] := by
    rw [rsi, hloss, hgain]
    simp
  rw [hloss, hrsi]
  refine ⟨rfl, rfl, ?_⟩
  simp only [List.get?_cons_succ, List.get?_cons_zero, ne_eq, Option.some.injEq]
  norm_num

/-! ### Claims on the pair scanner -/

/-- Claim C4: for a pair with `last_closed_ts = some t`, a batch whose most
recent timestamp is `≤ t` emits no Signal and no StatusUpdate and leaves the
pair's state unchanged; `last_closed_ts` is monotonically non-decreasing
across any step; and feeding the same batch a second time emits nothing —
whatever the strategy `f` does. -/
theorem duplicate_timestamp_emits_nothing_and_ts_monotone
    (f : List Candle → StrategyState → StrategyState × SignalOutput)
    (batch : List Candle) (p : PairSt) (t : Int)
    (h : p.last_closed_ts = some t) :
    (∀ c, batch.getLast? = some c → c.ts ≤ t →
      scanStep f batch p = (p, [], [])) ∧
    (∀ t', ((scanStep f batch p).1).last_closed_ts = some t' → t ≤ t') ∧
    (∀ c, batch.getLast? = some c →
      scanStep f batch ((scanStep f batch p).1) =
        ((scanStep f batch p).1, [], [])) := by
  refine ⟨?_, ?_, ?_⟩
  · intro c hc hle
    have hlt : ¬ t < c.ts := by omega
    simp [scanStep, hc, h, hlt]
  · intro t' ht'
    rcases hb : batch.getLast? with _ | c
    · simp only [scanStep, hb] at ht'
      rw [h] at ht'
      injection ht' with ht'
      omega
    · by_cases hlt : t < c.ts
      · simp only [scanStep, hb, h, hlt] at ht'
        simp at ht'
        omega
      · simp only [scanStep, hb, h] at ht'
        simp [hlt] at ht'
        rw [h] at ht'
        injection ht' with ht'
        omega
  · intro c hc
    by_cases hlt : t < c.ts
    · set p2 := (scanStep f batch p).1 with hp2
      have hnew : p2.last_closed_ts = some c.ts := by
        rw [hp2]; simp [scanStep, hc, h, hlt]
      simp [scanStep, hc, hnew]
    · have hstep : scanStep f batch p = (p, [], []) := by
        simp [scanStep, hc, h, hlt]
      rw [hstep]
      exact hstep

/-- A fixed sample candle for closed-form scanner evaluations. -/
def demoCandle : Candle :=
  { ts := 1000, copen := 1, high := 1, low := 1, close := 1, volume := 1 }

/-- A fixed freshly constructed pair for closed-form scanner evaluations. -/
def demoPair : PairSt :=
  { symbol := "BTC/USDT", timeframe := "1h", market_type := "spot" }

/-- Concrete instance of claim C4: re-feeding timestamp 1000 to a pair whose
`last_closed_ts` is already 1000 emits nothing and changes nothing. -/
theorem duplicate_timestamp_emits_nothing_and_ts_monotone_witness :
    scanStep (pureStrategy false false) [demoCandle]
        { demoPair with last_closed_ts := some 1000 } =
      ({ demoPair with last_closed_ts := some 1000 }, [], []) :=
  (duplicate_timestamp_emits_nothing_and_ts_monotone (pureStrategy false false)
    [demoCandle] { demoPair with last_closed_ts := some 1000 } 1000 rfl).1
    demoCandle rfl (by decide)

/-- Claim C2 (code bug evidence): a transport error inside `_watch_pair`
publishes one StatusUpdate carrying the error message and then the task
terminates (`true` flag): the subsequent successful fetch is never
processed, although processing it alone (second conjunct) would have
published a StatusUpdate for the newly closed candle.  The loop does not
resume after an error, because the `try`/`except` wraps the whole
`while True` loop. -/
theorem watch_pair_transport_error_terminates_task :
    watchPairRun (pureStrategy false false)
        [FetchResult.fetchErr "boom", FetchResult.fetchOk [demoCandle]]
        demoPair =
      (demoPair,
       [{ symbol := "BTC/USDT", market_type := "spot", timeframe := "1h",
          last_ts := none, error := some "boom" }],
       [], true) ∧
    (watchPairRun (pureStrategy false false) [FetchResult.fetchOk [demoCandle]]
        demoPair).2.1 =
      [{ symbol := "BTC/USDT", market_type := "spot", timeframe := "1h",
         last_ts := some 1000, error := none }] :=
  ⟨rfl, rfl⟩

end CryptoSignalPanel
